import Mathlib

/-!
Shallow embedding of madsim's task executor (src/madsim/src/sim/task.rs):
the node registry and lifecycle operations (create / pause / resume / kill /
restart), the ready-queue drain loop `run_all_ready`, the fatal checks in the
`block_on` loop, and the `JoinHandle` / `JoinError` surface.

`Arc<NodeInfo>` sharing is modelled as indices into a heap of `NodeInfo`
values carried in the state; mutation of the atomic `paused` / `killed` flags
is functional update of that heap, so aliasing between a task's pinned
`TaskInfo.node` pointer and the registry's current info is preserved.
Fatal errors (`expect` / `assert` aborts) are modelled with `Except String`.
The external collaborators (virtual-time subsystem, PRNG, the `utils::mpsc`
channel) are not under the sources verified here; they are modelled from the
spec's interface contracts and marked as such below.
-/

namespace MadsimSim

/-- NodeInfo: identity plus the mutable `paused` / `killed` flags
(task.rs `struct NodeInfo`). -/
structure NodeInfo where
  id : Nat
  name : String
  cores : Nat
  paused : Bool
  killed : Bool
deriving DecidableEq, Inhabited

/-- TaskInfo: task id and the node info captured at spawn time
(task.rs `struct TaskInfo`); the tracing span is omitted. -/
structure TaskInfo where
  id : Nat
  node : Nat
deriving DecidableEq, Inhabited

/-- A ready-queue entry models a `(Runnable, Arc<TaskInfo>)` pair; the
runnable itself is opaque. -/
abbrev Entry := TaskInfo

/-- Registry entry (task.rs `struct Node`).  The optional init closure only
ever spawns tasks on the `TaskNodeHandle` it receives, so it is abstracted by
the number of bootstrap tasks it spawns. -/
structure Node where
  info : Nat
  paused : List Entry
  init : Option Nat
deriving DecidableEq

/-- Read the NodeInfo heap at an index (an `Arc` dereference). -/
def getInfoL : List NodeInfo → Nat → NodeInfo
  | [], _ => default
  | x :: _, 0 => x
  | _ :: xs, n + 1 => getInfoL xs n

/-- Write the NodeInfo heap at an index (an atomic-flag store through an
`Arc`); out-of-range writes cannot occur in the source and are no-ops here. -/
def setInfoL : List NodeInfo → Nat → NodeInfo → List NodeInfo
  | [], _, _ => []
  | _ :: xs, 0, v => v :: xs
  | x :: xs, n + 1, v => x :: setInfoL xs n v

/-- Association-list lookup for the `HashMap<NodeId, Node>` registry. -/
def lookupNode : List (Nat × Node) → Nat → Option Node
  | [], _ => none
  | (k, n) :: rest, id => if k = id then some n else lookupNode rest id

/-- In-place update of one registry entry (`nodes.get_mut(&id)`). -/
def updateNode : List (Nat × Node) → Nat → (Node → Node) → List (Nat × Node)
  | [], _, _ => []
  | (k, n) :: rest, id, f =>
    if k = id then (k, f n) :: updateNode rest id f
    else (k, n) :: updateNode rest id f

/-- The executor-side state shared by `TaskHandle` clones: the NodeInfo heap,
the node registry, the two id counters, and the ready-queue buffer.
Modelled from the spec: the `utils::mpsc` channel (not under the verified
sources) buffers sent entries in order; `send` appends. -/
structure SimState where
  infos : List NodeInfo
  nodes : List (Nat × Node)
  nextNodeId : Nat
  nextTaskId : Nat
  queue : List Entry
deriving DecidableEq

/-- The pre-installed main node's info (Executor::new). -/
def mainInfo : NodeInfo :=
  { id := 0, name := "main", cores := 1, paused := false, killed := false }

/-- The heap index of the main node's info. -/
def mainRef : Nat := 0

/-- Initial state built by `Executor::new`: empty registry, node-id counter
at 1, main info pre-installed (and never inserted into the registry). -/
def initState : SimState :=
  { infos := [mainInfo], nodes := [], nextNodeId := 1, nextTaskId := 0,
    queue := [] }

/-- `TaskNodeHandle::spawn_local` on a handle bound to info `ref`: allocate a
task id, pin the node info, enqueue the initial runnable. -/
def spawnOn (s : SimState) (ref : Nat) : SimState :=
  { s with
    nextTaskId := s.nextTaskId + 1,
    queue := s.queue ++ [{ id := s.nextTaskId, node := ref }] }

/-- Spawn `n` tasks on info `ref` (the effect of an init closure). -/
def spawnN (s : SimState) (ref : Nat) : Nat → SimState
  | 0 => s
  | n + 1 => spawnN (spawnOn s ref) ref n

/-- `TaskHandle::kill`: clear the waiting list, install a fresh NodeInfo
(name copied, `cores` literally 1, flags clear), set `killed` on the old
info. -/
def kill (s : SimState) (id : Nat) : Except String SimState :=
  match lookupNode s.nodes id with
  | none => .error "node not found"
  | some node =>
    let oldRef := node.info
    let oldInfo := getInfoL s.infos oldRef
    let newInfo : NodeInfo :=
      { id := id, name := oldInfo.name, cores := 1,
        paused := false, killed := false }
    let newRef := s.infos.length
    let infos' :=
      setInfoL s.infos oldRef { oldInfo with killed := true } ++ [newInfo]
    let nodes' :=
      updateNode s.nodes id (fun n => { n with info := newRef, paused := [] })
    .ok { s with infos := infos', nodes := nodes' }

/-- `TaskHandle::restart`: kill, then invoke the stored init (if any) against
a handle bound to the node's new info. -/
def restart (s : SimState) (id : Nat) : Except String SimState :=
  match kill s id with
  | .error e => .error e
  | .ok s1 =>
    match lookupNode s1.nodes id with
    | none => .error "node not found"
    | some node =>
      match node.init with
      | none => .ok s1
      | some k => .ok (spawnN s1 node.info k)

/-- `TaskHandle::pause`: set `paused` on the node's current info. -/
def pause (s : SimState) (id : Nat) : Except String SimState :=
  match lookupNode s.nodes id with
  | none => .error "node not found"
  | some node =>
    let infos' :=
      setInfoL s.infos node.info
        { getInfoL s.infos node.info with paused := true }
    .ok { s with infos := infos' }

/-- `TaskHandle::resume`: clear `paused` on the node's current info, then
drain the waiting list into the ready queue in accumulation order. -/
def resume (s : SimState) (id : Nat) : Except String SimState :=
  match lookupNode s.nodes id with
  | none => .error "node not found"
  | some node =>
    let infos' :=
      setInfoL s.infos node.info
        { getInfoL s.infos node.info with paused := false }
    let nodes' := updateNode s.nodes id (fun n => { n with paused := [] })
    .ok { s with infos := infos', nodes := nodes',
                 queue := s.queue ++ node.paused }

/-- `TaskHandle::create_node`: allocate the next node id, build an info with
`cores.unwrap_or(1)` and name defaulting to `node-<id>`, run the init against
the new handle, then insert the registry entry.  Returns the new handle's
info ref as well. -/
def createNode (s : SimState) (name : Option String) (ini : Option Nat)
    (cores : Option Nat) : SimState × Nat :=
  let id := s.nextNodeId
  let nm := match name with
    | some n => n
    | none => "node-" ++ toString id
  let info : NodeInfo :=
    { id := id, name := nm, cores := cores.getD 1,
      paused := false, killed := false }
  let ref := s.infos.length
  let s1 : SimState :=
    { s with nextNodeId := s.nextNodeId + 1, infos := s.infos ++ [info] }
  let s2 := match ini with
    | none => s1
    | some k => spawnN s1 ref k
  ({ s2 with nodes := s2.nodes ++ [(id, { info := ref, paused := [], init := ini })] },
   ref)

/-- `TaskHandle::get_node`: id 0 resolves to the main info, everything else
through the registry. -/
def getNode (s : SimState) (id : Nat) : Option Nat :=
  if id = 0 then some mainRef
  else (lookupNode s.nodes id).map (·.info)

/-- Modelled from the spec: the PRNG's `gen_range(lo..hi)` maps a raw draw
into the half-open interval `[lo, hi)`. -/
def genRange (lo hi r : Nat) : Nat := lo + r % (hi - lo)

/-- Modelled from the spec: `mpsc::Receiver::try_recv_random` (the channel is
not under the verified sources) removes and returns a uniformly chosen
buffered entry, leaving the rest in order; empty buffer yields `none`. -/
def tryRecvRandom (q : List Entry) (r : Nat) : Option (Entry × List Entry) :=
  match q with
  | [] => none
  | x :: xs =>
    let i := r % (x :: xs).length
    some ((x :: xs).getD i x, (x :: xs).eraseIdx i)

/-- What the executor observed while draining: a dequeued entry was either
discarded (killed node), parked on the waiting list (paused node), or polled,
with the post-poll time bump recorded. -/
inductive DrainEvent where
  | discarded (e : Entry)
  | parked (e : Entry)
  | polled (e : Entry) (dur : Nat)
deriving DecidableEq

/-- Environment of the drain loop: what `runnable.run()` does to the shared
state (opaque task behaviour; it cannot touch virtual time, which only the
executor advances), and the PRNG draw stream. -/
structure DrainCtx where
  runEffect : Entry → SimState → SimState
  rand : Nat → Nat

/-- `Executor::run_all_ready`: repeatedly dequeue a random ready entry;
discard it if its pinned node info is killed, park it on its node's waiting
list if paused, otherwise run it and advance virtual time by
`gen_range(50..100)` nanoseconds.  `fuel` bounds the iteration count (the
queue may grow while tasks run); `ri` indexes the draw stream.  Returns the
final state, the final virtual time, and the event trace. -/
def runAllReady (ctx : DrainCtx) : Nat → SimState → Nat → Nat →
    SimState × Nat × List DrainEvent
  | 0, s, time, _ => (s, time, [])
  | fuel + 1, s, time, ri =>
    match tryRecvRandom s.queue (ctx.rand ri) with
    | none => (s, time, [])
    | some (e, q') =>
      let s1 : SimState := { s with queue := q' }
      let info := getInfoL s1.infos e.node
      if info.killed then
        let r := runAllReady ctx fuel s1 time (ri + 1)
        (r.1, r.2.1, .discarded e :: r.2.2)
      else if info.paused then
        let f := fun (n : Node) => { n with paused := n.paused ++ [e] }
        let s2 : SimState := { s1 with nodes := updateNode s1.nodes info.id f }
        let r := runAllReady ctx fuel s2 time (ri + 1)
        (r.1, r.2.1, .parked e :: r.2.2)
      else
        let s2 := ctx.runEffect e s1
        let dur := genRange 50 100 (ctx.rand (ri + 1))
        let r := runAllReady ctx fuel s2 (time + dur) (ri + 2)
        (r.1, r.2.1, .polled e dur :: r.2.2)

/-- Sum of the post-poll time bumps recorded in a drain trace. -/
def sumDurs : List DrainEvent → Nat
  | [] => 0
  | .polled _ d :: rest => d + sumDurs rest
  | _ :: rest => sumDurs rest

/-- Outcome of one `block_on` loop iteration. -/
inductive LoopOutcome (T : Type) where
  | ret (v : T)
  | fatal (msg : String)
  | again
deriving DecidableEq

/-- One iteration of the `block_on` loop after the drain phase: probe the
root join handle; if pending, advance virtual time to the next event
(`assert!(going, ...)` — fatal when there is none), then enforce the optional
time limit with `assert!(elapsed < limit, ...)`.  `elapsedAfter` is the
virtual elapsed time observed at the limit check. -/
def blockOnIter {T : Type} (rootPoll : Option T) (hasNextEvent : Bool)
    (elapsedAfter : Nat) (timeLimit : Option Nat) : LoopOutcome T :=
  match rootPoll with
  | some v => .ret v
  | none =>
    if hasNextEvent then
      match timeLimit with
      | none => .again
      | some limit =>
        if elapsedAfter < limit then .again
        else .fatal ("time limit exceeded: " ++ toString limit)
    else .fatal "no events, all tasks will block forever"

/-- Result of the wrapped `FallibleTask`: the task completed with a value, or
was cancelled, or its future panicked. -/
inductive TaskOutcome (T : Type) where
  | completed (v : T)
  | cancelled
  | panicked
deriving DecidableEq

/-- `FallibleTask` polls ready to `Some(value)` on completion and to `None`
when the task was cancelled or its future panicked. -/
def fallibleResult {T : Type} : TaskOutcome T → Option T
  | .completed v => some v
  | _ => none

/-- `struct JoinError { id, is_panic }`. -/
structure JoinError where
  id : Nat
  is_panic : Bool
deriving DecidableEq

/-- `JoinError::is_cancelled`. -/
def is_cancelled (e : JoinError) : Bool := !e.is_panic

/-- `JoinError::is_panic`. -/
def isPanicOf (e : JoinError) : Bool := e.is_panic

/-- `JoinHandle`: the task id and the `Mutex<Option<FallibleTask>>` slot;
`some ()` models a stored task. -/
structure SimJoinHandle where
  id : Nat
  task : Option Unit
deriving DecidableEq

/-- `JoinHandle::abort`: `self.task.lock().take()` — empty the slot. -/
def abortHandle (h : SimJoinHandle) : SimJoinHandle := { h with task := none }

/-- `impl Future for JoinHandle`: `self.task.lock().as_mut().unwrap()` — a
`none` result models the unwrap panic on an empty slot; otherwise the ready
result of the fallible task is mapped, with every `None` turned into
`JoinError { id, is_panic: true }` (the source's TODO conflation). -/
def pollJoinHandle {T : Type} (h : SimJoinHandle) (res : TaskOutcome T) :
    Option (Except JoinError T) :=
  match h.task with
  | none => none
  | some _ =>
    some (match fallibleResult res with
      | some v => .ok v
      | none => .error { id := h.id, is_panic := true })

/-- `impl fmt::Display for JoinError`: message includes the task id. -/
def displayJoinError (e : JoinError) : String :=
  if e.is_panic then "task " ++ toString e.id ++ " panicked"
  else "task " ++ toString e.id ++ " was cancelled"

/-- The kinds of `std::io::Error` this module produces. -/
inductive IoErrorKind where
  | other
deriving DecidableEq

/-- A `std::io::Error` as observed here: kind plus message string. -/
structure IoError where
  kind : IoErrorKind
  message : String
deriving DecidableEq

/-- `impl From<JoinError> for io::Error`: kind Other, message without the
task id. -/
def ioErrorOfJoinError (e : JoinError) : IoError :=
  { kind := .other,
    message := if e.is_panic then "task panicked" else "task was cancelled" }

/-- Total projection out of a fatal-or-state result (used to name concrete
post-states in witnesses). -/
def exceptGetD (x : Except String SimState) (d : SimState) : SimState :=
  match x with
  | .ok s => s
  | .error _ => d

/-- A sample drain context: polled tasks do nothing, PRNG constantly 0. -/
def demoCtx : DrainCtx := { runEffect := fun _ s => s, rand := fun _ => 0 }

/-- A sample state: one registered node (id 1, `cores = 128`) carrying one
ready task. -/
def demoState : SimState :=
  spawnOn (createNode initState none none (some 128)).1 1

/-- The registry entry of node 1 in `demoState`. -/
def demoNode : Node := { info := 1, paused := [], init := none }

/-- The state of `demoState` after `kill 1`. -/
def demoKilled : SimState := exceptGetD (kill demoState 1) initState

/-- A sample paused node with two entries accumulated in its waiting list. -/
def pausedDemoNode : Node :=
  { info := 1,
    paused := [{ id := 5, node := 1 }, { id := 6, node := 1 }],
    init := none }

/-- A sample state whose node 1 is paused with a non-empty waiting list. -/
def pausedDemoState : SimState :=
  { infos := [mainInfo,
      { id := 1, name := "node-1", cores := 1, paused := true,
        killed := false }],
    nodes := [(1, pausedDemoNode)],
    nextNodeId := 2, nextTaskId := 7,
    queue := [{ id := 4, node := 0 }] }

/-- A sample state: node 1 created with `cores = 128` and an init closure
spawning one bootstrap task. -/
def initDemoState : SimState := (createNode initState none (some 1) (some 128)).1

/-- The registry entry of node 1 in `initDemoState`. -/
def initDemoNode : Node := { info := 1, paused := [], init := some 1 }

/-- `runnable.run()` cannot clear a `killed` flag: monotonicity interface for
the opaque task effect (every lifecycle operation below satisfies it; `kill`
only ever stores `true`). -/
def KilledMono (f : Entry → SimState → SimState) : Prop :=
  ∀ e s r, (getInfoL s.infos r).killed = true →
    (getInfoL (f e s).infos r).killed = true

/-- Observation of the system after killing node `n`, relative to the heap
extent of a base state `s0`: the node's current info value, waiting list and
init, the ready queue, and the `killed` flag of every info that existed in
`s0` (what stale in-flight tasks can observe). -/
def killObs (s0 s : SimState) (n : Nat) :
    Option (NodeInfo × List Entry × Option Nat) × List Entry × List Bool :=
  ((lookupNode s.nodes n).map (fun nd => (getInfoL s.infos nd.info, nd.paused, nd.init)),
   s.queue,
   (List.range s0.infos.length).map (fun r => (getInfoL s.infos r).killed))

/-- The invariant that keeps the main node out of the registry: the node-id
counter starts at 1 and every registered key is at least 1. -/
def RegInv (s : SimState) : Prop :=
  1 ≤ s.nextNodeId ∧ ∀ kn ∈ s.nodes, 1 ≤ kn.1

theorem setInfoL_length (l : List NodeInfo) (r : Nat) (v : NodeInfo) :
    (setInfoL l r v).length = l.length := by
  induction l generalizing r with
  | nil => rfl
  | cons x xs ih =>
    cases r with
    | zero => rfl
    | succ m => simpa [setInfoL] using ih m

theorem getInfoL_append_left (l l2 : List NodeInfo) (r : Nat)
    (h : r < l.length) : getInfoL (l ++ l2) r = getInfoL l r := by
  induction l generalizing r with
  | nil => simp at h
  | cons x xs ih =>
    cases r with
    | zero => rfl
    | succ m =>
      simp only [List.cons_append, getInfoL]
      exact ih m (by simpa using h)

theorem getInfoL_append_length (l : List NodeInfo) (v : NodeInfo)
    (l2 : List NodeInfo) : getInfoL (l ++ v :: l2) l.length = v := by
  induction l with
  | nil => rfl
  | cons x xs ih => simpa [getInfoL] using ih

theorem getInfoL_setInfoL_self (l : List NodeInfo) (r : Nat) (v : NodeInfo)
    (h : r < l.length) : getInfoL (setInfoL l r v) r = v := by
  induction l generalizing r with
  | nil => simp at h
  | cons x xs ih =>
    cases r with
    | zero => rfl
    | succ m => exact ih m (by simpa using h)

theorem getInfoL_setInfoL_ne (l : List NodeInfo) (r r' : Nat) (v : NodeInfo)
    (h : r ≠ r') : getInfoL (setInfoL l r v) r' = getInfoL l r' := by
  induction l generalizing r r' with
  | nil => rfl
  | cons x xs ih =>
    cases r with
    | zero =>
      cases r' with
      | zero => exact absurd rfl h
      | succ m' => rfl
    | succ m =>
      cases r' with
      | zero => rfl
      | succ m' => exact ih m m' (by omega)

theorem setInfoL_setInfoL (l : List NodeInfo) (r : Nat) (v w : NodeInfo) :
    setInfoL (setInfoL l r v) r w = setInfoL l r w := by
  induction l generalizing r with
  | nil => rfl
  | cons x xs ih =>
    cases r with
    | zero => rfl
    | succ m => simpa [setInfoL] using ih m

theorem setInfoL_oor (l : List NodeInfo) (r : Nat) (v : NodeInfo)
    (h : l.length ≤ r) : setInfoL l r v = l := by
  induction l generalizing r with
  | nil => rfl
  | cons x xs ih =>
    cases r with
    | zero => simp at h
    | succ m => simpa [setInfoL] using ih m (by simpa using h)

theorem lookupNode_updateNode_self (ns : List (Nat × Node)) (id : Nat)
    (f : Node → Node) :
    lookupNode (updateNode ns id f) id = (lookupNode ns id).map f := by
  induction ns with
  | nil => rfl
  | cons kn rest ih =>
    obtain ⟨k, n⟩ := kn
    by_cases h : k = id
    · subst h
      simp [updateNode, lookupNode, ih]
    · simp [updateNode, lookupNode, h, ih]

theorem updateNode_idem (ns : List (Nat × Node)) (id : Nat) (f : Node → Node)
    (hf : ∀ n, f (f n) = f n) :
    updateNode (updateNode ns id f) id f = updateNode ns id f := by
  induction ns with
  | nil => rfl
  | cons kn rest ih =>
    obtain ⟨k, n⟩ := kn
    by_cases h : k = id
    · subst h
      simp [updateNode, hf, ih]
    · simp [updateNode, h, ih]

theorem updateNode_keys_le (id : Nat) (f : Node → Node) :
    ∀ ns : List (Nat × Node), (∀ kn ∈ ns, 1 ≤ kn.1) →
      ∀ kn ∈ updateNode ns id f, 1 ≤ kn.1 := by
  intro ns
  induction ns with
  | nil => intro _ kn hkn; simp [updateNode] at hkn
  | cons kn0 rest ih =>
    obtain ⟨k, n⟩ := kn0
    intro h kn hkn
    have hk : 1 ≤ k := h (k, n) (by simp)
    have hrest : ∀ kn ∈ rest, 1 ≤ kn.1 := fun kn hm => h kn (by simp [hm])
    by_cases hkid : k = id
    · rw [updateNode, if_pos hkid] at hkn
      rcases List.mem_cons.mp hkn with h1 | h2
      · subst h1; exact hk
      · exact ih hrest _ h2
    · rw [updateNode, if_neg hkid] at hkn
      rcases List.mem_cons.mp hkn with h1 | h2
      · subst h1; exact hk
      · exact ih hrest _ h2

theorem lookupNode_zero_none (ns : List (Nat × Node))
    (h : ∀ kn ∈ ns, 1 ≤ kn.1) : lookupNode ns 0 = none := by
  induction ns with
  | nil => rfl
  | cons kn rest ih =>
    obtain ⟨k, n⟩ := kn
    have hk : 1 ≤ k := h (k, n) (by simp)
    have : k ≠ 0 := by omega
    simp only [lookupNode, this, if_false]
    exact ih fun kn hm => h kn (by simp [hm])

theorem spawnN_infos (ref : Nat) :
    ∀ (m : Nat) (s : SimState), (spawnN s ref m).infos = s.infos := by
  intro m
  induction m with
  | zero => intro s; rfl
  | succ k ih => intro s; simpa [spawnN, spawnOn] using ih _

theorem spawnN_nodes (ref : Nat) :
    ∀ (m : Nat) (s : SimState), (spawnN s ref m).nodes = s.nodes := by
  intro m
  induction m with
  | zero => intro s; rfl
  | succ k ih => intro s; simpa [spawnN, spawnOn] using ih _

theorem spawnN_nextNodeId (ref : Nat) :
    ∀ (m : Nat) (s : SimState), (spawnN s ref m).nextNodeId = s.nextNodeId := by
  intro m
  induction m with
  | zero => intro s; rfl
  | succ k ih => intro s; simpa [spawnN, spawnOn] using ih _

theorem spawnN_queue_mem (ref : Nat) :
    ∀ (m : Nat) (s : SimState) (e : Entry),
      e ∈ (spawnN s ref m).queue → e ∈ s.queue ∨ e.node = ref := by
  intro m
  induction m with
  | zero => intro s e h; exact Or.inl h
  | succ k ih =>
    intro s e h
    rcases ih _ e h with h1 | h2
    · simp only [spawnOn, List.mem_append, List.mem_singleton] at h1
      rcases h1 with h1 | h1
      · exact Or.inl h1
      · subst h1; exact Or.inr rfl
    · exact Or.inr h2

theorem runAllReady_succ (ctx : DrainCtx) (fuel : Nat) (s : SimState)
    (time ri : Nat) :
    runAllReady ctx (fuel + 1) s time ri =
      match tryRecvRandom s.queue (ctx.rand ri) with
      | none => (s, time, [])
      | some (e, q') =>
        let s1 : SimState := { s with queue := q' }
        let info := getInfoL s1.infos e.node
        if info.killed then
          let r := runAllReady ctx fuel s1 time (ri + 1)
          (r.1, r.2.1, .discarded e :: r.2.2)
        else if info.paused then
          let f := fun (n : Node) => { n with paused := n.paused ++ [e] }
          let s2 : SimState := { s1 with nodes := updateNode s1.nodes info.id f }
          let r := runAllReady ctx fuel s2 time (ri + 1)
          (r.1, r.2.1, .parked e :: r.2.2)
        else
          let s2 := ctx.runEffect e s1
          let dur := genRange 50 100 (ctx.rand (ri + 1))
          let r := runAllReady ctx fuel s2 (time + dur) (ri + 2)
          (r.1, r.2.1, .polled e dur :: r.2.2) := rfl

theorem runAllReady_succ_none (ctx : DrainCtx) (fuel : Nat) (s : SimState)
    (time ri : Nat) (htr : tryRecvRandom s.queue (ctx.rand ri) = none) :
    runAllReady ctx (fuel + 1) s time ri = (s, time, []) := by
  rw [runAllReady_succ, htr]

theorem runAllReady_succ_killed (ctx : DrainCtx) (fuel : Nat) (s : SimState)
    (time ri : Nat) (e : Entry) (q' : List Entry)
    (htr : tryRecvRandom s.queue (ctx.rand ri) = some (e, q'))
    (hk : (getInfoL s.infos e.node).killed = true) :
    runAllReady ctx (fuel + 1) s time ri =
      ((runAllReady ctx fuel { s with queue := q' } time (ri + 1)).1,
       (runAllReady ctx fuel { s with queue := q' } time (ri + 1)).2.1,
       .discarded e ::
         (runAllReady ctx fuel { s with queue := q' } time (ri + 1)).2.2) := by
  rw [runAllReady_succ, htr]
  simp [hk]

theorem runAllReady_succ_parked (ctx : DrainCtx) (fuel : Nat) (s : SimState)
    (time ri : Nat) (e : Entry) (q' : List Entry)
    (htr : tryRecvRandom s.queue (ctx.rand ri) = some (e, q'))
    (hk : (getInfoL s.infos e.node).killed = false)
    (hp : (getInfoL s.infos e.node).paused = true) :
    runAllReady ctx (fuel + 1) s time ri =
      (let s2 : SimState :=
        { s with queue := q',
                 nodes := updateNode s.nodes (getInfoL s.infos e.node).id
                   (fun n => { n with paused := n.paused ++ [e] }) }
       ((runAllReady ctx fuel s2 time (ri + 1)).1,
        (runAllReady ctx fuel s2 time (ri + 1)).2.1,
        .parked e :: (runAllReady ctx fuel s2 time (ri + 1)).2.2)) := by
  rw [runAllReady_succ, htr]
  simp [hk, hp]

theorem runAllReady_succ_polled (ctx : DrainCtx) (fuel : Nat) (s : SimState)
    (time ri : Nat) (e : Entry) (q' : List Entry)
    (htr : tryRecvRandom s.queue (ctx.rand ri) = some (e, q'))
    (hk : (getInfoL s.infos e.node).killed = false)
    (hp : (getInfoL s.infos e.node).paused = false) :
    runAllReady ctx (fuel + 1) s time ri =
      (let s2 := ctx.runEffect e { s with queue := q' }
       let dur := genRange 50 100 (ctx.rand (ri + 1))
       ((runAllReady ctx fuel s2 (time + dur) (ri + 2)).1,
        (runAllReady ctx fuel s2 (time + dur) (ri + 2)).2.1,
        .polled e dur ::
          (runAllReady ctx fuel s2 (time + dur) (ri + 2)).2.2)) := by
  rw [runAllReady_succ, htr]
  simp [hk, hp]

theorem genRange_mem (lo hi r : Nat) (h : lo < hi) :
    lo ≤ genRange lo hi r ∧ genRange lo hi r < hi := by
  unfold genRange
  have := Nat.mod_lt r (show 0 < hi - lo by omega)
  omega

theorem runAllReady_time_eq (ctx : DrainCtx) :
    ∀ (fuel : Nat) (s : SimState) (time ri : Nat),
      (runAllReady ctx fuel s time ri).2.1 =
        time + sumDurs (runAllReady ctx fuel s time ri).2.2 := by
  intro fuel
  induction fuel with
  | zero => intro s time ri; simp [runAllReady, sumDurs]
  | succ n ih =>
    intro s time ri
    cases htr : tryRecvRandom s.queue (ctx.rand ri) with
    | none =>
      rw [runAllReady_succ_none ctx n s time ri htr]
      simp [sumDurs]
    | some p =>
      obtain ⟨e, q'⟩ := p
      cases hk : (getInfoL s.infos e.node).killed with
      | true =>
        rw [runAllReady_succ_killed ctx n s time ri e q' htr hk]
        simpa [sumDurs] using ih _ time (ri + 1)
      | false =>
        cases hp : (getInfoL s.infos e.node).paused with
        | true =>
          rw [runAllReady_succ_parked ctx n s time ri e q' htr hk hp]
          simpa [sumDurs] using ih _ time (ri + 1)
        | false =>
          rw [runAllReady_succ_polled ctx n s time ri e q' htr hk hp]
          simp only [sumDurs]
          have h2 := ih (ctx.runEffect e { s with queue := q' })
            (time + genRange 50 100 (ctx.rand (ri + 1))) (ri + 2)
          omega

theorem runAllReady_polled_range (ctx : DrainCtx) :
    ∀ (fuel : Nat) (s : SimState) (time ri : Nat) (e : Entry) (d : Nat),
      DrainEvent.polled e d ∈ (runAllReady ctx fuel s time ri).2.2 →
      50 ≤ d ∧ d < 100 := by
  intro fuel
  induction fuel with
  | zero => intro s time ri e d hmem; simp [runAllReady] at hmem
  | succ n ih =>
    intro s time ri e d hmem
    cases htr : tryRecvRandom s.queue (ctx.rand ri) with
    | none =>
      rw [runAllReady_succ_none ctx n s time ri htr] at hmem
      simp at hmem
    | some p =>
      obtain ⟨e0, q'⟩ := p
      cases hk : (getInfoL s.infos e0.node).killed with
      | true =>
        rw [runAllReady_succ_killed ctx n s time ri e0 q' htr hk] at hmem
        rcases List.mem_cons.mp hmem with h1 | h2
        · exact absurd h1 (by simp)
        · exact ih _ time (ri + 1) e d h2
      | false =>
        cases hp : (getInfoL s.infos e0.node).paused with
        | true =>
          rw [runAllReady_succ_parked ctx n s time ri e0 q' htr hk hp] at hmem
          rcases List.mem_cons.mp hmem with h1 | h2
          · exact absurd h1 (by simp)
          · exact ih _ time (ri + 1) e d h2
        | false =>
          rw [runAllReady_succ_polled ctx n s time ri e0 q' htr hk hp] at hmem
          rcases List.mem_cons.mp hmem with h1 | h2
          · obtain ⟨he, hd⟩ := DrainEvent.polled.inj h1
            subst hd
            exact genRange_mem 50 100 (ctx.rand (ri + 1)) (by omega)
          · exact ih _ _ (ri + 2) e d h2

theorem runAllReady_no_poll_killed (ctx : DrainCtx)
    (hmono : KilledMono ctx.runEffect) (r : Nat) :
    ∀ (fuel : Nat) (s : SimState) (time ri : Nat),
      (getInfoL s.infos r).killed = true →
      ∀ e d, DrainEvent.polled e d ∈ (runAllReady ctx fuel s time ri).2.2 →
        e.node ≠ r := by
  intro fuel
  induction fuel with
  | zero => intro s time ri hkr e d hmem; simp [runAllReady] at hmem
  | succ n ih =>
    intro s time ri hkr e d hmem
    cases htr : tryRecvRandom s.queue (ctx.rand ri) with
    | none =>
      rw [runAllReady_succ_none ctx n s time ri htr] at hmem
      simp at hmem
    | some p =>
      obtain ⟨e0, q'⟩ := p
      cases hk : (getInfoL s.infos e0.node).killed with
      | true =>
        rw [runAllReady_succ_killed ctx n s time ri e0 q' htr hk] at hmem
        rcases List.mem_cons.mp hmem with h1 | h2
        · exact absurd h1 (by simp)
        · exact ih { s with queue := q' } time (ri + 1) hkr e d h2
      | false =>
        cases hp : (getInfoL s.infos e0.node).paused with
        | true =>
          rw [runAllReady_succ_parked ctx n s time ri e0 q' htr hk hp] at hmem
          rcases List.mem_cons.mp hmem with h1 | h2
          · exact absurd h1 (by simp)
          · exact ih
              { s with queue := q',
                       nodes := updateNode s.nodes (getInfoL s.infos e0.node).id
                         (fun n => { n with paused := n.paused ++ [e0] }) }
              time (ri + 1) hkr e d h2
        | false =>
          rw [runAllReady_succ_polled ctx n s time ri e0 q' htr hk hp] at hmem
          rcases List.mem_cons.mp hmem with h1 | h2
          · obtain ⟨he, _⟩ := DrainEvent.polled.inj h1
            subst he
            intro habs
            rw [habs] at hk
            rw [hkr] at hk
            exact Bool.true_eq_false.mp hk
          · exact ih _ _ (ri + 2)
              (hmono e0 { s with queue := q' } r hkr) e d h2

theorem runAllReady_reginv (ctx : DrainCtx)
    (hctx : ∀ e s, RegInv s → RegInv (ctx.runEffect e s)) :
    ∀ (fuel : Nat) (s : SimState) (time ri : Nat),
      RegInv s → RegInv (runAllReady ctx fuel s time ri).1 := by
  intro fuel
  induction fuel with
  | zero => intro s time ri hs; simpa [runAllReady] using hs
  | succ n ih =>
    intro s time ri hs
    cases htr : tryRecvRandom s.queue (ctx.rand ri) with
    | none =>
      rw [runAllReady_succ_none ctx n s time ri htr]
      exact hs
    | some p =>
      obtain ⟨e0, q'⟩ := p
      cases hk : (getInfoL s.infos e0.node).killed with
      | true =>
        rw [runAllReady_succ_killed ctx n s time ri e0 q' htr hk]
        exact ih _ time (ri + 1) hs
      | false =>
        cases hp : (getInfoL s.infos e0.node).paused with
        | true =>
          rw [runAllReady_succ_parked ctx n s time ri e0 q' htr hk hp]
          exact ih _ time (ri + 1)
            ⟨hs.1, updateNode_keys_le _ _ _ hs.2⟩
        | false =>
          rw [runAllReady_succ_polled ctx n s time ri e0 q' htr hk hp]
          exact ih _ _ (ri + 2) (hctx e0 { s with queue := q' } hs)

theorem getInfoL_oor (l : List NodeInfo) (r : Nat) (h : l.length ≤ r) :
    getInfoL l r = default := by
  induction l generalizing r with
  | nil => rfl
  | cons x xs ih =>
    cases r with
    | zero => simp at h
    | succ m => exact ih m (by simpa using h)

/-- C5: in the `block_on` loop, once the ready queue is drained and the root
join handle polls pending, a report of no next event from the time subsystem
makes `block_on` fail fatally with "no events, all tasks will block forever";
it never iterates silently in that situation. -/
theorem blockOn_deadlock_fatal {T : Type} (elapsed : Nat) (tl : Option Nat) :
    blockOnIter (T := T) none false elapsed tl =
      .fatal "no events, all tasks will block forever"
    ∧ blockOnIter (T := T) none false elapsed tl ≠ .again := by
  refine ⟨rfl, ?_⟩
  intro h
  rw [show blockOnIter (T := T) none false elapsed tl =
        .fatal "no events, all tasks will block forever" from rfl] at h
  exact LoopOutcome.noConfusion h

/-- C5 witness: concrete instance of the deadlock check. -/
theorem blockOn_deadlock_fatal_witness :
    blockOnIter (T := Unit) none false 42 (some 10) =
      .fatal "no events, all tasks will block forever" :=
  (blockOn_deadlock_fatal (T := Unit) 42 (some 10)).1

/-- C6 counterexample: with a configured limit of 5 and virtual elapsed time
exactly 5 — not strictly greater than the bound — the post-advance check
still fails fatally, because the source asserts `elapsed < limit`. -/
theorem time_limit_boundary_counterexample :
    blockOnIter (T := Unit) none true 5 (some 5) =
      .fatal ("time limit exceeded: " ++ toString 5)
    ∧ ¬ (5 > 5) :=
  ⟨rfl, by omega⟩

/-- C6 (amended): with a limit configured, the check performed after the
time-advance phase fails fatally iff virtual elapsed time is at least (not
strictly greater than) the bound; with no limit configured, the only fatal
outcome of an iteration is the deadlock diagnostic, never a time-limit
failure. -/
theorem time_limit_check {T : Type} (elapsed limit : Nat)
    (rootPoll : Option T) (hasNext : Bool) :
    (blockOnIter (T := Unit) none true elapsed (some limit) =
        .fatal ("time limit exceeded: " ++ toString limit) ↔ limit ≤ elapsed)
    ∧ (∀ msg, blockOnIter rootPoll hasNext elapsed none = .fatal msg →
        msg = "no events, all tasks will block forever") := by
  constructor
  · constructor
    · intro h
      by_cases hlt : elapsed < limit
      · rw [show blockOnIter (T := Unit) none true elapsed (some limit) =
              .again from by simp [blockOnIter, hlt]] at h
        exact absurd h (by simp)
      · omega
    · intro h
      have hlt : ¬ elapsed < limit := by omega
      simp [blockOnIter, hlt]
  · intro msg h
    cases rootPoll with
    | some v => simp [blockOnIter] at h
    | none =>
      cases hasNext with
      | true => simp [blockOnIter] at h
      | false =>
        simp only [blockOnIter, Bool.false_eq_true, if_false] at h
        exact (LoopOutcome.fatal.inj h).symm

/-- C6 witness: at elapsed 7 past a limit of 5 the time-limit check is
fatal. -/
theorem time_limit_check_witness :
    blockOnIter (T := Unit) none true 7 (some 5) =
      .fatal ("time limit exceeded: " ++ toString 5) :=
  (time_limit_check (T := Unit) 7 5 none true).1.mpr (by omega)

/-- C2 counterexample: a task that fails other than by completing — here a
cancelled fallible result with the handle still holding its task — surfaces
as a JoinError with `is_panic = true` and `is_cancelled() = false`, not as a
cancelled-kind error; and a handle that was aborted does not produce a
cancelled error at all: polling it panics on the emptied slot. -/
theorem join_cancelled_kind_counterexample :
    pollJoinHandle (T := Nat) { id := 7, task := some () } .cancelled =
      some (.error { id := 7, is_panic := true })
    ∧ is_cancelled { id := 7, is_panic := true } = false
    ∧ pollJoinHandle (T := Nat)
        (abortHandle { id := 7, task := some () }) .cancelled = none :=
  ⟨rfl, rfl, rfl⟩

/-- C2 (amended): awaiting a join handle yields `Ok(value)` on normal
completion, but every JoinError it produces — whatever the failure cause —
carries `is_panic = true` and `is_cancelled() = false` with the handle's task
id: the source marks every abnormal result as panicked (TODO in the code)
and never surfaces a cancelled kind. -/
theorem join_handle_outcomes {T : Type} (h : SimJoinHandle)
    (res : TaskOutcome T) (v : T) :
    (h.task = some () → pollJoinHandle h (.completed v) = some (.ok v))
    ∧ (∀ err, pollJoinHandle h res = some (.error err) →
        isPanicOf err = true ∧ is_cancelled err = false ∧ err.id = h.id) := by
  obtain ⟨i, t⟩ := h
  constructor
  · intro ht
    cases t with
    | none => exact absurd ht (by simp)
    | some u => rfl
  · intro err herr
    cases t with
    | none => exact absurd herr (by simp [pollJoinHandle])
    | some u =>
      cases res with
      | completed w => simp [pollJoinHandle, fallibleResult] at herr
      | cancelled =>
        simp only [pollJoinHandle, fallibleResult, Option.some.injEq] at herr
        obtain rfl := (Except.error.inj herr).symm
        exact ⟨rfl, rfl, rfl⟩
      | panicked =>
        simp only [pollJoinHandle, fallibleResult, Option.some.injEq] at herr
        obtain rfl := (Except.error.inj herr).symm
        exact ⟨rfl, rfl, rfl⟩

/-- C2 witness: a completed task's handle yields `Ok(value)`. -/
theorem join_handle_outcomes_witness :
    pollJoinHandle (T := Nat) { id := 3, task := some () } (.completed 9) =
      some (.ok 9) :=
  (join_handle_outcomes { id := 3, task := some () } (TaskOutcome.panicked (T := Nat)) 9).1 rfl

/-- C3 counterexample: for the JoinError with id 5 and kind cancelled, the
display message is "task 5 was cancelled" but the converted I/O error
carries "task was cancelled" — the task id is dropped, so the conversion
does not carry the same message. -/
theorem join_error_id_message_counterexample :
    displayJoinError { id := 5, is_panic := false } = "task 5 was cancelled"
    ∧ ioErrorOfJoinError { id := 5, is_panic := false } =
        { kind := .other, message := "task was cancelled" }
    ∧ (ioErrorOfJoinError { id := 5, is_panic := false }).message ≠
        displayJoinError { id := 5, is_panic := false } := by
  refine ⟨rfl, rfl, ?_⟩
  decide

/-- C3 (amended): the display message is exactly "task <t> was cancelled" /
"task <t> panicked" with the task id, while the conversion into an I/O error
produces kind Other with the fixed messages "task was cancelled" /
"task panicked", without the task id. -/
theorem join_error_display_and_io_kinds (t : Nat) :
    displayJoinError { id := t, is_panic := false } =
      "task " ++ toString t ++ " was cancelled"
    ∧ displayJoinError { id := t, is_panic := true } =
      "task " ++ toString t ++ " panicked"
    ∧ ioErrorOfJoinError { id := t, is_panic := false } =
      { kind := .other, message := "task was cancelled" }
    ∧ ioErrorOfJoinError { id := t, is_panic := true } =
      { kind := .other, message := "task panicked" } :=
  ⟨rfl, rfl, rfl, rfl⟩

/-- C8: after `abort()` empties the task slot, any subsequent poll of the
same handle panics on the unwrap of the empty slot (modelled by `none`)
rather than returning a cancelled error; `abort` is idempotent, and taking
from an already-empty slot is a no-op. -/
theorem abort_then_poll_panics {T : Type} (h : SimJoinHandle)
    (res : TaskOutcome T) :
    pollJoinHandle (T := T) (abortHandle h) res = none
    ∧ abortHandle (abortHandle h) = abortHandle h
    ∧ (h.task = none → abortHandle h = h) := by
  refine ⟨rfl, rfl, ?_⟩
  intro ht
  obtain ⟨i, t⟩ := h
  simp only at ht
  subst ht
  rfl

/-- C8 witness: aborting a live handle then polling it panics (empty slot),
and a second abort changes nothing. -/
theorem abort_then_poll_panics_witness :
    pollJoinHandle (T := Nat) (abortHandle { id := 2, task := some () })
      .cancelled = none
    ∧ abortHandle (abortHandle { id := 2, task := some () }) =
        abortHandle { id := 2, task := some () } :=
  ⟨(abort_then_poll_panics (T := Nat) { id := 2, task := some () } .cancelled).1,
   (abort_then_poll_panics (T := Nat) { id := 2, task := some () } .cancelled).2.1⟩

/-- C7: in the drain phase each task poll — every poll separately, the main
node's tasks included — is followed by a virtual-time advance of a
pseudo-random duration in [50, 100) nanoseconds: every recorded bump lies in
[50, 100), the final time is the start time plus the sum of the per-poll
bumps (one bump per poll, not one per batch), time never decreases across the
drain, and every duration in [50, 100) is producible by some PRNG draw. -/
theorem drain_poll_time_bump (ctx : DrainCtx) (fuel : Nat) (s : SimState)
    (time ri : Nat) :
    (∀ e d, DrainEvent.polled e d ∈ (runAllReady ctx fuel s time ri).2.2 →
      50 ≤ d ∧ d < 100)
    ∧ (runAllReady ctx fuel s time ri).2.1 =
        time + sumDurs (runAllReady ctx fuel s time ri).2.2
    ∧ time ≤ (runAllReady ctx fuel s time ri).2.1
    ∧ (∀ d, 50 ≤ d → d < 100 → genRange 50 100 (d - 50) = d) := by
  refine ⟨fun e d hm => runAllReady_polled_range ctx fuel s time ri e d hm,
    runAllReady_time_eq ctx fuel s time ri, ?_, ?_⟩
  · rw [runAllReady_time_eq ctx fuel s time ri]
    omega
  · intro d h1 h2
    have hm : (d - 50) % 50 = d - 50 := Nat.mod_eq_of_lt (by omega)
    unfold genRange
    omega

/-- C7 witness: concrete drain of the sample state obeys the time
accounting. -/
theorem drain_poll_time_bump_witness :
    (runAllReady demoCtx 3 demoState 0 0).2.1 =
      0 + sumDurs (runAllReady demoCtx 3 demoState 0 0).2.2 :=
  (drain_poll_time_bump demoCtx 3 demoState 0 0).2.1

theorem resume_noop (t : SimState) (n : Nat) (nd : Node)
    (h : lookupNode t.nodes n = some nd) (hp : nd.paused = [])
    (hi : setInfoL t.infos nd.info
        { getInfoL t.infos nd.info with paused := false } = t.infos)
    (hu : updateNode t.nodes n (fun x => { x with paused := [] }) = t.nodes) :
    resume t n = .ok t := by
  simp only [resume, h, hp, hi, hu, List.append_nil]

/-- C4: `resume` on a known node clears the paused flag and then moves every
waiting-list entry onto the ready queue in exactly the order they were
accumulated (appended to the back of the queue, first-appended first-sent),
leaving the waiting list empty; `resume` on an already-resumed node drains an
empty list and returns the state unchanged. -/
theorem resume_drains_in_order (s : SimState) (n : Nat) (node : Node)
    (hn : lookupNode s.nodes n = some node) :
    ∃ s', resume s n = .ok s'
      ∧ (getInfoL s'.infos node.info).paused = false
      ∧ s'.queue = s.queue ++ node.paused
      ∧ lookupNode s'.nodes n = some { node with paused := [] }
      ∧ resume s' n = .ok s' := by
  refine ⟨{ s with
      infos := setInfoL s.infos node.info
        { getInfoL s.infos node.info with paused := false },
      nodes := updateNode s.nodes n (fun nd => { nd with paused := [] }),
      queue := s.queue ++ node.paused }, ?_, ?_, rfl, ?_, ?_⟩
  · simp only [resume, hn]
  · show (getInfoL (setInfoL s.infos node.info
        { getInfoL s.infos node.info with paused := false })
        node.info).paused = false
    by_cases hlt : node.info < s.infos.length
    · rw [getInfoL_setInfoL_self _ _ _ hlt]
    · have hge : s.infos.length ≤ node.info := by omega
      rw [setInfoL_oor _ _ _ hge, getInfoL_oor _ _ hge]
      rfl
  · rw [lookupNode_updateNode_self, hn]
    rfl
  · refine resume_noop _ n { node with paused := [] } ?_ rfl ?_ ?_
    · rw [lookupNode_updateNode_self, hn]
      rfl
    · show setInfoL
        (setInfoL s.infos node.info
          { getInfoL s.infos node.info with paused := false }) node.info _ = _
      by_cases hlt : node.info < s.infos.length
      · rw [getInfoL_setInfoL_self _ _ _ hlt, setInfoL_setInfoL]
      · have hge : s.infos.length ≤ node.info := by omega
        rw [setInfoL_oor s.infos _ _ hge]
        rw [setInfoL_oor s.infos _ _ hge]
    · exact updateNode_idem _ _ _ (fun nd => rfl)

/-- C4 witness: resuming the sample paused node sends both waiting entries in
accumulation order and a second resume is a no-op. -/
theorem resume_drains_in_order_witness :
    ∃ s', resume pausedDemoState 1 = .ok s'
      ∧ (getInfoL s'.infos pausedDemoNode.info).paused = false
      ∧ s'.queue = pausedDemoState.queue ++ pausedDemoNode.paused
      ∧ lookupNode s'.nodes 1 = some { pausedDemoNode with paused := [] }
      ∧ resume s' 1 = .ok s' :=
  resume_drains_in_order pausedDemoState 1 pausedDemoNode rfl

theorem getInfoL_set_append (l : List NodeInfo) (r : Nat) (v w : NodeInfo) :
    getInfoL (setInfoL l r v ++ [w]) l.length = w := by
  have h := setInfoL_length l r v
  rw [← h]
  exact getInfoL_append_length _ _ _

theorem getInfoL_set_append_lt (l : List NodeInfo) (r : Nat) (v w : NodeInfo)
    (r' : Nat) (h : r' < l.length) :
    getInfoL (setInfoL l r v ++ [w]) r' = getInfoL (setInfoL l r v) r' := by
  apply getInfoL_append_left
  rw [setInfoL_length]
  exact h

/-- C9: the replacement NodeInfo installed by `kill` always has `cores = 1`,
whatever cores value the node was created with: after `kill` the node's
handle from `get_node` is bound to the fresh info whose `cores` is 1, and
after `restart` (kill followed by the init closure) the same holds, with
every task the init spawns pinned to that `cores = 1` info. -/
theorem kill_resets_cores (s : SimState) (n : Nat) (node : Node)
    (hn : lookupNode s.nodes n = some node) (hn0 : n ≠ 0) (k : Nat)
    (_hco : (getInfoL s.infos node.info).cores = k)
    (s' : SimState) (hk : kill s n = .ok s') :
    getNode s' n = some s.infos.length
    ∧ (getInfoL s'.infos s.infos.length).cores = 1
    ∧ (node.init = none → restart s n = .ok s')
    ∧ (∀ m, node.init = some m →
        restart s n = .ok (spawnN s' s.infos.length m)
        ∧ (getInfoL (spawnN s' s.infos.length m).infos s.infos.length).cores = 1
        ∧ ∀ e ∈ (spawnN s' s.infos.length m).queue,
            e ∈ s'.queue ∨ e.node = s.infos.length) := by
  have hkk := hk
  simp only [kill, hn, Except.ok.injEq] at hk
  have hlook : lookupNode s'.nodes n =
      some { node with info := s.infos.length, paused := [] } := by
    rw [← hk, lookupNode_updateNode_self, hn]
    rfl
  have hcores : (getInfoL s'.infos s.infos.length).cores = 1 := by
    rw [← hk]
    show (getInfoL (setInfoL s.infos node.info _ ++ [_]) s.infos.length).cores = 1
    rw [getInfoL_set_append]
  refine ⟨?_, hcores, ?_, ?_⟩
  · simp only [getNode, if_neg hn0, hlook]
    rfl
  · intro hini
    simp only [restart, hkk, hlook, hini]
  · intro m hini
    refine ⟨?_, ?_, ?_⟩
    · simp only [restart, hkk, hlook, hini]
    · rw [spawnN_infos]
      exact hcores
    · intro e he
      exact spawnN_queue_mem _ _ _ _ he

/-- C9 witness: node 1 of the sample state was created with cores 128; after
kill, the handle observes cores 1. -/
theorem kill_resets_cores_witness :
    getNode demoKilled 1 = some demoState.infos.length
    ∧ (getInfoL demoKilled.infos demoState.infos.length).cores = 1 :=
  ⟨(kill_resets_cores demoState 1 demoNode rfl (by omega) 128 rfl demoKilled
      rfl).1,
   (kill_resets_cores demoState 1 demoNode rfl (by omega) 128 rfl demoKilled
      rfl).2.1⟩

theorem kill_reginv (s : SimState) (n : Nat) (s' : SimState)
    (h : kill s n = .ok s') (hinv : RegInv s) : RegInv s' := by
  cases hln : lookupNode s.nodes n with
  | none => simp [kill, hln] at h
  | some node =>
    simp only [kill, hln, Except.ok.injEq] at h
    rw [← h]
    exact ⟨hinv.1, updateNode_keys_le _ _ _ hinv.2⟩

theorem pause_reginv (s : SimState) (n : Nat) (s' : SimState)
    (h : pause s n = .ok s') (hinv : RegInv s) : RegInv s' := by
  cases hln : lookupNode s.nodes n with
  | none => simp [pause, hln] at h
  | some node =>
    simp only [pause, hln, Except.ok.injEq] at h
    rw [← h]
    exact ⟨hinv.1, hinv.2⟩

theorem resume_reginv (s : SimState) (n : Nat) (s' : SimState)
    (h : resume s n = .ok s') (hinv : RegInv s) : RegInv s' := by
  cases hln : lookupNode s.nodes n with
  | none => simp [resume, hln] at h
  | some node =>
    simp only [resume, hln, Except.ok.injEq] at h
    rw [← h]
    exact ⟨hinv.1, updateNode_keys_le _ _ _ hinv.2⟩

theorem restart_reginv (s : SimState) (n : Nat) (s' : SimState)
    (h : restart s n = .ok s') (hinv : RegInv s) : RegInv s' := by
  cases hkr : kill s n with
  | error e => simp [restart, hkr] at h
  | ok s1 =>
    have h1 : RegInv s1 := kill_reginv s n s1 hkr hinv
    cases hln : lookupNode s1.nodes n with
    | none => simp [restart, hkr, hln] at h
    | some node =>
      cases hini : node.init with
      | none =>
        simp only [restart, hkr, hln, hini, Except.ok.injEq] at h
        rw [← h]
        exact h1
      | some m =>
        simp only [restart, hkr, hln, hini, Except.ok.injEq] at h
        rw [← h]
        refine ⟨?_, ?_⟩
        · rw [spawnN_nextNodeId]
          exact h1.1
        · rw [spawnN_nodes]
          exact h1.2

theorem createNode_reginv (s : SimState) (name : Option String)
    (ini : Option Nat) (cores : Option Nat) (hinv : RegInv s) :
    RegInv (createNode s name ini cores).1 := by
  have hnodes : (createNode s name ini cores).1.nodes =
      s.nodes ++ [(s.nextNodeId,
        { info := s.infos.length, paused := [], init := ini })] := by
    cases ini with
    | none => rfl
    | some m =>
      simp only [createNode]
      rw [spawnN_nodes]
  have hnid : 1 ≤ (createNode s name ini cores).1.nextNodeId := by
    cases ini with
    | none =>
      show 1 ≤ s.nextNodeId + 1
      omega
    | some m =>
      show 1 ≤ (spawnN _ _ m).nextNodeId
      rw [spawnN_nextNodeId]
      show 1 ≤ s.nextNodeId + 1
      omega
  refine ⟨hnid, ?_⟩
  intro kn hkn
  rw [hnodes] at hkn
  rcases List.mem_append.mp hkn with h1 | h2
  · exact hinv.2 kn h1
  · rw [List.mem_singleton.mp h2]
    exact hinv.1

theorem spawnOn_reginv (s : SimState) (r : Nat) (hinv : RegInv s) :
    RegInv (spawnOn s r) := hinv

/-- C10: because the registry only ever receives keys drawn from the node-id
counter that starts at 1, the main node (id 0) is never stored in it: under
that invariant — established by `Executor::new` and preserved by every
operation, the drain loop included — `kill`, `restart`, `pause` and `resume`
on node 0 all fail fatally with "node not found", while `get_node 0` always
succeeds with a handle bound to the main NodeInfo. -/
theorem main_node_ops_fail (s : SimState) (hinv : RegInv s) :
    kill s 0 = .error "node not found"
    ∧ restart s 0 = .error "node not found"
    ∧ pause s 0 = .error "node not found"
    ∧ resume s 0 = .error "node not found"
    ∧ getNode s 0 = some mainRef
    ∧ getInfoL initState.infos mainRef = mainInfo
    ∧ RegInv initState
    ∧ (∀ n s', kill s n = .ok s' → RegInv s')
    ∧ (∀ n s', restart s n = .ok s' → RegInv s')
    ∧ (∀ n s', pause s n = .ok s' → RegInv s')
    ∧ (∀ n s', resume s n = .ok s' → RegInv s')
    ∧ (∀ name ini cores, RegInv (createNode s name ini cores).1)
    ∧ (∀ r, RegInv (spawnOn s r))
    ∧ (∀ ctx : DrainCtx, (∀ e s0, RegInv s0 → RegInv (ctx.runEffect e s0)) →
        ∀ fuel time ri, RegInv (runAllReady ctx fuel s time ri).1) := by
  have hz : lookupNode s.nodes 0 = none := lookupNode_zero_none s.nodes hinv.2
  refine ⟨?_, ?_, ?_, ?_, rfl, rfl, ⟨Nat.le_refl 1, by simp [initState]⟩,
    fun n s' h => kill_reginv s n s' h hinv,
    fun n s' h => restart_reginv s n s' h hinv,
    fun n s' h => pause_reginv s n s' h hinv,
    fun n s' h => resume_reginv s n s' h hinv,
    fun name ini cores => createNode_reginv s name ini cores hinv,
    fun r => spawnOn_reginv s r hinv,
    fun ctx hctx fuel time ri => runAllReady_reginv ctx hctx fuel s time ri hinv⟩
  · simp [kill, hz]
  · simp [restart, kill, hz]
  · simp [pause, hz]
  · simp [resume, hz]

/-- C10 witness: in the initial state the lifecycle operations on node 0 fail
with "node not found". -/
theorem main_node_ops_fail_witness :
    kill initState 0 = .error "node not found"
    ∧ getNode initState 0 = some mainRef :=
  ⟨(main_node_ops_fail initState ⟨Nat.le_refl 1, by simp [initState]⟩).1,
   (main_node_ops_fail initState ⟨Nat.le_refl 1, by simp [initState]⟩).2.2.2.2.1⟩

theorem kill_eq (s : SimState) (n : Nat) (nd : Node)
    (h : lookupNode s.nodes n = some nd) :
    kill s n = .ok { s with
      infos := setInfoL s.infos nd.info
        { getInfoL s.infos nd.info with killed := true } ++
        [{ id := n, name := (getInfoL s.infos nd.info).name, cores := 1,
           paused := false, killed := false }],
      nodes := updateNode s.nodes n
        (fun x => { x with info := s.infos.length, paused := [] }) } := by
  simp only [kill, h]

/-- C1: `kill` clears the node's waiting list, sets `killed = true` on the
old NodeInfo and installs a fresh NodeInfo with clear flags, leaving the
ready queue untouched; consequently any entry pinned to the old info — every
task whose TaskInfo was allocated before the kill — is never polled by the
drain loop again (killed entries are discarded at dequeue; polled tasks
cannot unset a `killed` flag), while tasks pinned to the fresh info run
normally; and a second `kill` produces the same observable state as the
first. -/
theorem kill_isolation (s0 : SimState) (n : Nat) (node : Node)
    (hn : lookupNode s0.nodes n = some node)
    (hr : node.info < s0.infos.length)
    (s1 : SimState) (hk1 : kill s0 n = .ok s1) :
    (getInfoL s1.infos node.info).killed = true
    ∧ lookupNode s1.nodes n =
        some { node with info := s0.infos.length, paused := [] }
    ∧ (getInfoL s1.infos s0.infos.length).killed = false
    ∧ (getInfoL s1.infos s0.infos.length).paused = false
    ∧ s1.queue = s0.queue
    ∧ (∀ ctx : DrainCtx, KilledMono ctx.runEffect →
        ∀ fuel time ri e d,
          DrainEvent.polled e d ∈ (runAllReady ctx fuel s1 time ri).2.2 →
          e.node ≠ node.info)
    ∧ (∃ s2, kill s1 n = .ok s2 ∧ killObs s0 s2 n = killObs s0 s1 n) := by
  rw [kill_eq s0 n node hn] at hk1
  have hk1' := Except.ok.inj hk1
  subst hk1'
  have hold : (getInfoL (setInfoL s0.infos node.info
      { getInfoL s0.infos node.info with killed := true } ++
      [{ id := n, name := (getInfoL s0.infos node.info).name, cores := 1,
         paused := false, killed := false }]) node.info).killed = true := by
    rw [getInfoL_set_append_lt _ _ _ _ _ hr, getInfoL_setInfoL_self _ _ _ hr]
  have hlook1 : lookupNode (updateNode s0.nodes n
      (fun nd => { nd with info := s0.infos.length, paused := [] })) n =
      some { node with info := s0.infos.length, paused := [] } := by
    rw [lookupNode_updateNode_self, hn]
    rfl
  have hnew : getInfoL (setInfoL s0.infos node.info
      { getInfoL s0.infos node.info with killed := true } ++
      [{ id := n, name := (getInfoL s0.infos node.info).name, cores := 1,
         paused := false, killed := false }]) s0.infos.length =
      { id := n, name := (getInfoL s0.infos node.info).name, cores := 1,
        paused := false, killed := false } := getInfoL_set_append _ _ _ _
  refine ⟨hold, hlook1, ?_, ?_, rfl, ?_, ?_⟩
  · rw [hnew]
  · rw [hnew]
  · intro ctx hmono fuel time ri e d hmem
    exact runAllReady_no_poll_killed ctx hmono node.info fuel _ time ri hold
      e d hmem
  · refine ⟨_, kill_eq _ n _ hlook1, ?_⟩
    simp only [killObs]
    rw [lookupNode_updateNode_self, hlook1]
    simp only [Option.map_some', Prod.mk.injEq]
    refine ⟨?_, trivial, ?_⟩
    · rw [getInfoL_set_append, hnew]
    · refine List.map_congr_left ?_
      intro rr hrr
      have hlt : rr < s0.infos.length := List.mem_range.mp hrr
      have hlen1 : rr < (setInfoL s0.infos node.info
          { getInfoL s0.infos node.info with killed := true } ++
          ([{ id := n, name := (getInfoL s0.infos node.info).name,
              cores := 1, paused := false, killed := false }] :
            List NodeInfo)).length := by
        rw [List.length_append, setInfoL_length]
        simp only [List.length_singleton]
        omega
      rw [getInfoL_set_append_lt _ _ _ _ _ hlen1,
        getInfoL_setInfoL_ne _ _ _ _ (show s0.infos.length ≠ rr by omega)]

/-- C1 witness: killing node 1 of the sample state marks the old info killed,
installs a clean replacement, and a second kill is observably identical. -/
theorem kill_isolation_witness :
    (getInfoL demoKilled.infos demoNode.info).killed = true
    ∧ (getInfoL demoKilled.infos demoState.infos.length).killed = false
    ∧ (∃ s2, kill demoKilled 1 = .ok s2
        ∧ killObs demoState s2 1 = killObs demoState demoKilled 1) :=
  ⟨(kill_isolation demoState 1 demoNode rfl (by decide) demoKilled rfl).1,
   (kill_isolation demoState 1 demoNode rfl (by decide) demoKilled
      rfl).2.2.1,
   (kill_isolation demoState 1 demoNode rfl (by decide) demoKilled
      rfl).2.2.2.2.2.2⟩

end MadsimSim
